import Mathlib

/-!
Verification of the cross-process coordination layer of a round-based
social-deduction game.  The Python sources are shallowly embedded: the
mutable `GameState` / `PlayerState` dataclasses become immutable Lean
structures that the operations transform, the JSON files on disk become
explicit file-state values threaded through the operations, and Python
exceptions become `Except` results.  Machine integers do not occur (all
counters are unbounded Python ints), so `Nat` is used throughout.
-/

/-- One participant of a lobby, mirroring the fields of the Python
`PlayerState` dataclass that the verified operations read or write. -/
structure PlayerState where
  code_name : String
  is_human : Bool
  still_in_game : Bool
  timekeeper : Bool
deriving DecidableEq, Repr

/-- The shared game state, mirroring the fields of the Python `GameState`
dataclass that the verified operations read or write. -/
structure GameState where
  players : List PlayerState
  players_voted_off : List PlayerState
  round_number : Nat
  number_of_human_players : Nat
  last_vote_outcome : String
  round_complete : Bool
  icebreakers : List String
  ice_asked : Nat
deriving DecidableEq, Repr

/-- The screen/state values of the coordinator finite state machine
(`utils.states.ScreenEnum`, as enumerated by the handler table in
`src/main.py`). -/
inductive ScreenEnum
  | INTRO
  | SETUP
  | DEBUG
  | CHAT
  | SCORE
  | VOTE
deriving DecidableEq, Repr

/-- A Python value fed to the coordinator loop as the current screen:
either one of the six `ScreenEnum` members, or some other (unrecognized)
value, which the handler dictionary does not contain. -/
inductive ScreenVal
  | valid (s : ScreenEnum)
  | invalid (tag : String)
deriving DecidableEq, Repr

/-- The vote table of one round: a JSON object mapping a target code name
to its vote count, in insertion order (Python dict semantics). -/
abbrev VoteTable := List (String × Nat)

/-- The whole `voting.json` content: a JSON object whose keys are the
round markers `votes_r<n>` (represented by the round number `n`), each
holding that round's vote table. -/
abbrev VoteDict := List (Nat × VoteTable)

/-- The on-disk state of `voting.json`: missing, containing malformed
JSON, or containing a well-formed vote dictionary. -/
inductive VFile
  | absent
  | malformed
  | good (vd : VoteDict)
deriving DecidableEq, Repr

/-- The on-disk state of `players.json`: missing, containing malformed
JSON, or containing a well-formed roster. -/
inductive PFile
  | absent
  | malformed
  | good (players : List PlayerState)
deriving DecidableEq, Repr

/-- The Python exceptions that the embedded operations can raise. -/
inductive PyErr
  | jsonDecodeError
  | valueError
deriving DecidableEq, Repr

/-- Assignment `d[k] = v` on a Python dict rendered as an association
list: replace the value in place if the key exists, else append the new
pair at the end (Python dicts preserve insertion order). -/
def dictSet {α β : Type} [BEq α] (l : List (α × β)) (k : α) (v : β) : List (α × β) :=
  if l.any (fun kv => kv.1 == k) then
    l.map (fun kv => if kv.1 == k then (k, v) else kv)
  else
    l ++ [(k, v)]

/-- The round-0 vote dictionary that `get_voting_dict` writes when the
voting file does not exist yet: every current player maps to 0 votes,
always under the `votes_r0` key. -/
def init_vote_dict (gs : GameState) : VoteDict :=
  [(0, gs.players.map (fun p => (p.code_name, 0)))]

/-- `voting.get_voting_dict`: load the voting dictionary from the file,
or initialize (and write) the round-0 dictionary when the file is
absent.  Malformed JSON makes the unguarded `json.load` raise, so the
error propagates.  Returns the dictionary together with the file state
after the call. -/
def get_voting_dict (f : VFile) (gs : GameState) : Except PyErr (VoteDict × VFile) :=
  match f with
  | VFile.absent => Except.ok (init_vote_dict gs, VFile.good (init_vote_dict gs))
  | VFile.malformed => Except.error PyErr.jsonDecodeError
  | VFile.good vd => Except.ok (vd, VFile.good vd)

/-- The current round's vote table as `voting.update_voting_dict` sees it
after its first step: the table stored under the current round key, or a
fresh zero table built from the active roster when the key is missing. -/
def round_table (vd : VoteDict) (gs : GameState) : VoteTable :=
  match vd.lookup gs.round_number with
  | some t => t
  | none => gs.players.map (fun p => (p.code_name, 0))

/-- `voting.update_voting_dict`: load (or initialize) the dictionary,
create the current round's table from the roster if missing, then
increment the chosen code name's count and write the file back; raise
`ValueError` when the code name is not a key of the table, in which case
no write happens in this function.  The second component is the file
state after the call. -/
def update_voting_dict (f : VFile) (gs : GameState) (code_name : String) :
    Except PyErr VoteDict × VFile :=
  match get_voting_dict f gs with
  | Except.error e => (Except.error e, f)
  | Except.ok (vd, f1) =>
    let t := round_table vd gs
    match t.lookup code_name with
    | some n =>
      let vd' := dictSet vd gs.round_number (dictSet t code_name (n + 1))
      (Except.ok vd', VFile.good vd')
    | none => (Except.error PyErr.valueError, f1)

/-- The vote-collection phase of `voting.voting_round` as seen by the
shared file: each participant's process calls `update_voting_dict` with
the target it chose.  The voter is the first component of each pair and
is never passed on; only the target reaches the file. -/
def record_votes (f : VFile) (gs : GameState) (votes : List (String × String)) : VFile :=
  votes.foldl (fun fc vt => (update_voting_dict fc gs vt.2).2) f

/-- Equality test on `Except` results, needed to state concrete
evaluations of the fallible operations. -/
instance {ε α : Type} [DecidableEq ε] [DecidableEq α] : DecidableEq (Except ε α) := fun x y =>
  match x, y with
  | Except.ok a, Except.ok b =>
    if h : a = b then Decidable.isTrue (by rw [h]) else Decidable.isFalse (by simp [h])
  | Except.error e, Except.error f =>
    if h : e = f then Decidable.isTrue (by rw [h]) else Decidable.isFalse (by simp [h])
  | Except.ok _, Except.error _ => Decidable.isFalse (by simp)
  | Except.error _, Except.ok _ => Decidable.isFalse (by simp)

/-- Lexicographic comparison of character lists by code point, the order
Python uses to compare the strings that `sorted` keys on. -/
def charList_lt : List Char → List Char → Bool
  | [], [] => false
  | [], _ :: _ => true
  | _ :: _, [] => false
  | a :: as, b :: bs => if a = b then charList_lt as bs else decide (a < b)

/-- Strict lexicographic order on strings. -/
def str_lt (a b : String) : Bool :=
  charList_lt a.data b.data

/-- Non-strict lexicographic order on strings. -/
def str_le (a b : String) : Bool :=
  str_lt a b || a == b

/-- Insert an element into a list assumed sorted for `le`, before the
first element it is `le`-below; with a reflexive total `le` this is the
insertion step of a stable insertion sort. -/
def insert_by {α : Type} (le : α → α → Bool) (a : α) : List α → List α
  | [] => [a]
  | b :: bs => if le a b then a :: b :: bs else b :: insert_by le a bs

/-- A stable sort, modelling the Python builtin `sorted` used with a key
function. -/
def sort_by {α : Type} (le : α → α → Bool) : List α → List α
  | [] => []
  | a :: rest => insert_by le a (sort_by le rest)

/-- The voting menu of `voting.collect_vote` / `display_voting_prompt`:
the players sorted by code name, so every process shows the same
numbering. -/
def eligible_players (gs : GameState) : List PlayerState :=
  sort_by (fun a b => str_le a.code_name b.code_name) gs.players

/-- `voting.collect_vote`: prompt until a valid vote is entered.  The
interactive inputs are modelled as a list of already-parsed attempts
(`none` is a non-numeric entry, which `int()` rejects).  Returns `none`
when the input list is exhausted (the real loop would keep prompting). -/
def collect_vote (gs : GameState) (ps : PlayerState) :
    List (Option Int) → Option String
  | [] => none
  | none :: rest => collect_vote gs ps rest
  | some vote :: rest =>
    if 1 ≤ vote ∧ vote ≤ ((eligible_players gs).length : Int) then
      match (eligible_players gs)[(vote - 1).toNat]? with
      | some chosen =>
        if chosen.code_name == ps.code_name then collect_vote gs ps rest
        else some chosen.code_name
      | none => collect_vote gs ps rest
    else
      collect_vote gs ps rest

/-- `voting.count_votes`: look up the current round's table, take the
maximum vote count, and return the list of code names that attain it
together with that maximum.  `none` models the exceptions the Python
code raises when the round key is missing (`KeyError`) or the table is
empty (`max` of an empty sequence). -/
def count_votes (vote_dict : VoteDict) (gs : GameState) : Option (List String × Nat) :=
  match vote_dict.lookup gs.round_number with
  | none => none
  | some current_vote_dict =>
    match current_vote_dict.map Prod.snd with
    | [] => none
    | v :: vs =>
      let max_votes := vs.foldl Nat.max v
      some ((current_vote_dict.filter (fun kv => kv.2 == max_votes)).map Prod.fst,
        max_votes)

/-- `utils.asthetics.format_gm_message` without the terminal color
codes: the moderator banner around a message. -/
def format_gm_message (msg : String) : String :=
  "\n\n" ++ String.mk (List.replicate 50 '*') ++ "\n" ++
    "GAME MASTER: " ++ msg ++ "\n" ++ String.mk (List.replicate 50 '*') ++ "\n"

/-- `voting.process_voting_result`: apply the plurality policy.  A tie
for the maximum, or a zero maximum, changes nothing; otherwise the first
(unique) leader is flagged as out, removed from the active roster and
appended to the eliminated collection.  `none` models the `IndexError`
on an empty leader list.  Returns the updated game state, the updated
local player state, and the display message. -/
def process_voting_result (gs : GameState) (ps : PlayerState) (max_votes : Nat)
    (players_voted_for_the_most : List String) :
    Option (GameState × PlayerState × String) :=
  if 1 < players_voted_for_the_most.length then
    let gs' := { gs with last_vote_outcome := "No consensus, no one is voted out this round." }
    some (gs', ps, format_gm_message gs'.last_vote_outcome)
  else if max_votes = 0 then
    let gs' := { gs with last_vote_outcome := "No votes were cast, no one is voted out." }
    some (gs', ps, format_gm_message gs'.last_vote_outcome)
  else
    match players_voted_for_the_most with
    | [] => none
    | voted_out_code_name :: _ =>
      match gs.players.find? (fun p => p.code_name == voted_out_code_name) with
      | some voted_out_player =>
        let gs' := { gs with
          players := gs.players.filter (fun p => p.code_name != voted_out_code_name),
          players_voted_off :=
            gs.players_voted_off ++ [{ voted_out_player with still_in_game := false }],
          last_vote_outcome := voted_out_code_name ++ " has been voted out." }
        if ps.code_name == voted_out_code_name then
          some (gs', { ps with still_in_game := false },
            ("You " ++ ps.code_name ++ " have been voted out! Please stay and observe").toUpper)
        else
          some (gs', ps, format_gm_message gs'.last_vote_outcome)
      | none => some (gs, ps, format_gm_message "Unexpected error: No valid voting result.")

/-- `voting.should_transition_to_score`: the game ends when no human
player remains, or no AI player remains, or the round number has reached
the configured human-player count. -/
def should_transition_to_score (gs : GameState) : Bool :=
  if (gs.players.filter (fun p => p.is_human)).length = 0 then true
  else if (gs.players.filter (fun p => !p.is_human)).length = 0 then true
  else if gs.number_of_human_players ≤ gs.round_number then true
  else false

/-- The result-processing tail of `voting.voting_round` (everything after
the vote barrier): count the votes, apply the outcome, refresh the local
player's alive flag, increment the round number, clear the
round-complete flag, and pick the next screen.  `none` models the
exceptions of `count_votes` / `process_voting_result`. -/
def voting_round (gs : GameState) (ps : PlayerState) (vote_dict : VoteDict) :
    Option (ScreenEnum × GameState × PlayerState) :=
  match count_votes vote_dict gs with
  | none => none
  | some (players_voted_for_the_most, max_votes) =>
    match process_voting_result gs ps max_votes players_voted_for_the_most with
    | none => none
    | some (gs1, ps1, _result) =>
      let ps2 :=
        if ((gs1.players.filter (fun p => p.still_in_game)).map
            (fun p => p.code_name)).contains ps1.code_name then ps1
        else { ps1 with still_in_game := false }
      let gs2 := { gs1 with round_number := gs1.round_number + 1, round_complete := false }
      if should_transition_to_score gs2 then some (ScreenEnum.SCORE, gs2, ps2)
      else some (ScreenEnum.CHAT, gs2, ps2)

/-- `score.score_screen`: after the final scoreboard is shown and
acknowledged, the handler returns the `INTRO` screen with the states
unchanged. -/
def score_screen (gs : GameState) (ps : PlayerState) :
    ScreenEnum × GameState × PlayerState :=
  (ScreenEnum.INTRO, gs, ps)

/-- Membership of the current screen value in the handler dictionary of
`main.main`: the dictionary has exactly the six `ScreenEnum` members as
keys, so any other value is missing. -/
def state_handled (ss : ScreenVal) : Bool :=
  match ss with
  | ScreenVal.valid _ => true
  | ScreenVal.invalid _ => false

/-- One guard evaluation of the `while True` loop of `main.main`: the
loop body runs a handler and continues when the screen value is a key of
the handler dictionary, and breaks otherwise. -/
def main_loop_breaks (ss : ScreenVal) : Bool :=
  !(state_handled ss)

/-- `game.ask_icebreaker` restricted to the state it mutates: pop the
head of the icebreaker queue and bump the issued counter.  `none` models
the `IndexError` on an empty queue. -/
def ask_icebreaker (gs : GameState) : Option GameState :=
  match gs.icebreakers with
  | [] => none
  | _ :: rest => some { gs with ice_asked := gs.ice_asked + 1, icebreakers := rest }

/-- The guarded round-start step of `game.play_game`: issue an
icebreaker only while the issued counter has not passed the round
number. -/
def round_start_step (gs : GameState) : Option GameState :=
  if gs.ice_asked ≤ gs.round_number then ask_icebreaker gs
  else some gs

/-- The roster a reader obtains from a `players.json` state when it
recovers from problems: a missing file reads as no players, and the
recovery path of `save_player_to_lobby_file` treats malformed JSON as an
empty roster. -/
def roster_of (f : PFile) : List PlayerState :=
  match f with
  | PFile.absent => []
  | PFile.malformed => []
  | PFile.good players => players

/-- The deduplicating append inside
`utils.file_io.save_player_to_lobby_file`: skip the write when a record
with the same code name is already present. -/
def register_player (players : List PlayerState) (ps : PlayerState) : List PlayerState :=
  if players.any (fun p => p.code_name == ps.code_name) then players
  else players ++ [ps]

/-- `utils.file_io.save_player_to_lobby_file`: read the existing roster
(starting fresh on a missing or corrupt file — the `json.load` here is
guarded by an exception handler), append the player unless the code name
is already present, and write the file back.  This operation never
raises. -/
def save_player_to_lobby_file (f : PFile) (ps : PlayerState) : PFile :=
  PFile.good (register_player (roster_of f) ps)

/-- `utils.file_io.load_players_from_lobby`: a missing file yields the
empty roster, but the `json.load` is not guarded here, so malformed JSON
raises out of the function. -/
def load_players_from_lobby (f : PFile) : Except PyErr (List PlayerState) :=
  match f with
  | PFile.absent => Except.ok []
  | PFile.malformed => Except.error PyErr.jsonDecodeError
  | PFile.good players => Except.ok players

/-- A whole sequence of registrations against one lobby's
`players.json`, starting from a fresh (absent) file, and the roster it
leaves behind. -/
def register_sequence (seq : List PlayerState) : List PlayerState :=
  roster_of (seq.foldl save_player_to_lobby_file PFile.absent)

/-! Concrete fixtures used by the example checks and witnesses. -/

/-- A human participant with code name `A`, the lobby timekeeper. -/
def alice : PlayerState :=
  { code_name := "A", is_human := true, still_in_game := true, timekeeper := true }

/-- An automated participant with code name `B`. -/
def bobBot : PlayerState :=
  { code_name := "B", is_human := false, still_in_game := true, timekeeper := false }

/-- A second human participant with code name `C`. -/
def carol : PlayerState :=
  { code_name := "C", is_human := true, still_in_game := true, timekeeper := false }

/-- A lobby of one human and one automated participant, at round 0. -/
def gsTwo : GameState :=
  { players := [alice, bobBot], players_voted_off := [], round_number := 0,
    number_of_human_players := 2, last_vote_outcome := "", round_complete := true,
    icebreakers := ["q1", "q2"], ice_asked := 0 }

/-- The same lobby with a third participant. -/
def gsThree : GameState :=
  { gsTwo with players := [alice, bobBot, carol] }

/-- `alice` as she appears in the eliminated collection. -/
def aliceOut : PlayerState :=
  { alice with still_in_game := false }

/-- `gsTwo` after a round-0 vote of one ballot for `A`: `A` is out, the
round number has advanced, and no human player remains. -/
def gsTwoAfter : GameState :=
  { gsTwo with players := [bobBot], players_voted_off := [aliceOut], last_vote_outcome := "A has been voted out.", round_number := 1, round_complete := false }

/-- `gsThree` after a tied round-0 vote: nobody is out and the round
number has advanced. -/
def gsThreeAfter : GameState :=
  { gsThree with last_vote_outcome := "No consensus, no one is voted out this round.", round_number := 1, round_complete := false }

/-- A state about to replay the round-start step of round 1 while its
issued-icebreaker counter is still 0. -/
def gsIce : GameState :=
  { gsTwo with round_number := 1 }

/-! Helper lemmas. -/

/-- The seed of a maximum fold is below the result. -/
theorem le_foldl_max (l : List Nat) (b : Nat) : b ≤ l.foldl Nat.max b := by
  induction l generalizing b with
  | nil => exact Nat.le_refl b
  | cons a as ih => exact Nat.le_trans (Nat.le_max_left b a) (ih (Nat.max b a))

/-- Every list element is below a maximum fold over the list. -/
theorem foldl_max_le (l : List Nat) (b : Nat) : ∀ a ∈ l, a ≤ l.foldl Nat.max b := by
  induction l generalizing b with
  | nil => intro a ha; cases ha
  | cons x xs ih =>
    intro a ha
    rw [List.foldl_cons]
    rcases List.mem_cons.mp ha with rfl | hmem
    · exact Nat.le_trans (Nat.le_max_right b a) (le_foldl_max xs (Nat.max b a))
    · exact ih (Nat.max b x) a hmem

/-- A maximum fold is attained: it is the seed or some list element. -/
theorem foldl_max_mem (l : List Nat) (b : Nat) :
    l.foldl Nat.max b = b ∨ l.foldl Nat.max b ∈ l := by
  induction l generalizing b with
  | nil => left; rfl
  | cons x xs ih =>
    rcases ih (Nat.max b x) with h | h
    · rcases Nat.le_total b x with hbx | hxb
      · right
        have hx : List.foldl Nat.max b (x :: xs) = x := by
          rw [List.foldl_cons, h]
          exact Nat.max_eq_right hbx
        rw [hx]
        exact List.mem_cons_self x xs
      · left
        rw [List.foldl_cons, h]
        exact Nat.max_eq_left hxb
    · right
      exact List.mem_cons_of_mem x h

/-- Membership is preserved by the insertion step of the stable sort. -/
theorem mem_insert_by {α : Type} (le : α → α → Bool) (a x : α) (l : List α) :
    x ∈ insert_by le a l ↔ x = a ∨ x ∈ l := by
  induction l with
  | nil => simp [insert_by]
  | cons b bs ih =>
    simp only [insert_by]
    cases hle : le a b with
    | true =>
      rw [if_pos rfl]
      simp [List.mem_cons]
    | false =>
      rw [if_neg (by simp)]
      simp only [List.mem_cons, ih]
      tauto

/-- Membership is preserved by the stable sort. -/
theorem mem_sort_by {α : Type} (le : α → α → Bool) (x : α) (l : List α) :
    x ∈ sort_by le l ↔ x ∈ l := by
  induction l with
  | nil => simp [sort_by]
  | cons a rest ih => simp [sort_by, mem_insert_by, ih, List.mem_cons]

/-- Unfolding of the termination test as the disjunction of its three
conditions. -/
theorem should_transition_to_score_iff (gs : GameState) :
    should_transition_to_score gs = true ↔
      ((gs.players.filter (fun p => p.is_human)).length = 0 ∨
       (gs.players.filter (fun p => !p.is_human)).length = 0 ∨
       gs.number_of_human_players ≤ gs.round_number) := by
  unfold should_transition_to_score
  split_ifs with h1 h2 h3
  · simp [h1]
  · simp [h2]
  · simp [h3]
  · simp [h1, h2, h3]

/-- Applying a voting result never changes the round number or the
configured human count. -/
theorem process_voting_result_fields (gs : GameState) (ps : PlayerState)
    (mx : Nat) (most : List String) (gs1 : GameState) (ps1 : PlayerState) (msg : String)
    (h : process_voting_result gs ps mx most = some (gs1, ps1, msg)) :
    gs1.round_number = gs.round_number ∧
    gs1.number_of_human_players = gs.number_of_human_players := by
  unfold process_voting_result at h
  split_ifs at h with hlen hmx
  · simp only [Option.some.injEq, Prod.mk.injEq] at h
    obtain ⟨hgs, -, -⟩ := h
    subst hgs
    exact ⟨rfl, rfl⟩
  · simp only [Option.some.injEq, Prod.mk.injEq] at h
    obtain ⟨hgs, -, -⟩ := h
    subst hgs
    exact ⟨rfl, rfl⟩
  · split at h
    · exact absurd h (by simp)
    · split at h
      · split_ifs at h <;>
          (simp only [Option.some.injEq, Prod.mk.injEq] at h
           obtain ⟨hgs, -, -⟩ := h
           subst hgs
           exact ⟨rfl, rfl⟩)
      · simp only [Option.some.injEq, Prod.mk.injEq] at h
        obtain ⟨hgs, -, -⟩ := h
        subst hgs
        exact ⟨rfl, rfl⟩

/-- The code names after a deduplicating append: unchanged when the name
is present, extended by it otherwise. -/
theorem register_player_names (acc : List PlayerState) (p : PlayerState) :
    (register_player acc p).map (fun q => q.code_name) =
      if p.code_name ∈ acc.map (fun q => q.code_name) then
        acc.map (fun q => q.code_name)
      else acc.map (fun q => q.code_name) ++ [p.code_name] := by
  unfold register_player
  by_cases h : acc.any (fun q => q.code_name == p.code_name) = true
  · have hmem : p.code_name ∈ acc.map (fun q => q.code_name) := by
      rw [List.any_eq_true] at h
      obtain ⟨q, hq, he⟩ := h
      exact List.mem_map.mpr ⟨q, hq, eq_of_beq he⟩
    rw [if_pos h, if_pos hmem]
  · have hnot : p.code_name ∉ acc.map (fun q => q.code_name) := by
      intro hmem
      obtain ⟨q, hq, he⟩ := List.mem_map.mp hmem
      exact h (List.any_eq_true.mpr ⟨q, hq, beq_iff_eq.mpr he⟩)
    rw [if_neg h, if_neg hnot, List.map_append]
    rfl

/-- Exact count of one code name after folding registrations over an
accumulated roster. -/
theorem register_fold_count (seq : List PlayerState) (acc : List PlayerState) (c : String) :
    List.count c ((seq.foldl register_player acc).map (fun q => q.code_name)) =
      if c ∈ acc.map (fun q => q.code_name) then
        List.count c (acc.map (fun q => q.code_name))
      else if c ∈ seq.map (fun q => q.code_name) then 1 else 0 := by
  induction seq generalizing acc with
  | nil =>
    by_cases hc : c ∈ acc.map (fun q => q.code_name)
    · simp [hc]
    · simp [hc, List.count_eq_zero.mpr hc]
  | cons p rest ih =>
    rw [List.foldl_cons, ih (register_player acc p), register_player_names]
    by_cases hp : p.code_name ∈ acc.map (fun q => q.code_name)
    · rw [if_pos hp]
      by_cases hc : c ∈ acc.map (fun q => q.code_name)
      · simp [hc]
      · rw [if_neg hc, if_neg hc]
        have hcp : c ≠ p.code_name := fun he => hc (he ▸ hp)
        simp [List.mem_cons, hcp]
    · rw [if_neg hp]
      by_cases hcp : c = p.code_name
      · subst hcp
        rw [if_pos (List.mem_append.mpr (Or.inr (List.mem_singleton.mpr rfl))),
          if_neg hp, if_pos (by simp [List.mem_cons]),
          List.count_append, List.count_eq_zero.mpr hp]
        simp [List.count_cons, List.count_nil]
      · have hone : List.count c [p.code_name] = 0 :=
          List.count_eq_zero.mpr (by simp [hcp])
        by_cases hc : c ∈ acc.map (fun q => q.code_name)
        · rw [if_pos (List.mem_append.mpr (Or.inl hc)), if_pos hc,
            List.count_append, hone, Nat.add_zero]
        · rw [if_neg (by simp [hc, hcp]), if_neg hc]
          simp [List.mem_cons, hcp]

/-- Reading back the roster after a fold of saves is the same as folding
the deduplicating append over the initially read roster. -/
theorem roster_of_foldl (seq : List PlayerState) (f : PFile) :
    roster_of (seq.foldl save_player_to_lobby_file f) =
      seq.foldl register_player (roster_of f) := by
  induction seq generalizing f with
  | nil => rfl
  | cons p rest ih =>
    rw [List.foldl_cons, List.foldl_cons, ih]
    rfl

/-- A step of `round_start_step` past an already-issued round changes
nothing. -/
theorem round_start_step_of_gt (gs : GameState) (h : gs.round_number < gs.ice_asked) :
    round_start_step gs = some gs := by
  unfold round_start_step
  rw [if_neg (by omega)]

/-- Destructuring of a successful `voting_round` run: the tallied vote,
the applied result, and how the returned state and screen are built. -/
theorem voting_round_cases (gs : GameState) (ps : PlayerState) (vd : VoteDict)
    (scr : ScreenEnum) (gs' : GameState) (ps' : PlayerState)
    (h : voting_round gs ps vd = some (scr, gs', ps')) :
    ∃ most mx gs1 ps1 msg,
      count_votes vd gs = some (most, mx) ∧
      process_voting_result gs ps mx most = some (gs1, ps1, msg) ∧
      gs' = { gs1 with round_number := gs1.round_number + 1, round_complete := false } ∧
      scr = (if should_transition_to_score gs' then ScreenEnum.SCORE else ScreenEnum.CHAT) := by
  unfold voting_round at h
  cases hcv : count_votes vd gs with
  | none =>
    simp only [hcv] at h
    exact Option.noConfusion h
  | some pr =>
    obtain ⟨most, mx⟩ := pr
    simp only [hcv] at h
    cases hp : process_voting_result gs ps mx most with
    | none =>
      simp only [hp] at h
      exact Option.noConfusion h
    | some out =>
      obtain ⟨gs1, ps1, msg⟩ := out
      simp only [hp] at h
      by_cases hst : should_transition_to_score
          { gs1 with round_number := gs1.round_number + 1, round_complete := false } = true
      · rw [if_pos hst] at h
        simp only [Option.some.injEq, Prod.mk.injEq] at h
        obtain ⟨h1, h2, h3⟩ := h
        subst h1
        subst h2
        exact ⟨most, mx, gs1, ps1, msg, rfl, hp, rfl, by rw [if_pos hst]⟩
      · rw [if_neg hst] at h
        simp only [Option.some.injEq, Prod.mk.injEq] at h
        obtain ⟨h1, h2, h3⟩ := h
        subst h1
        subst h2
        exact ⟨most, mx, gs1, ps1, msg, rfl, hp, rfl, by rw [if_neg hst]⟩

/-! Claim theorems. -/

/-- C3, counterexample: loading the roster via `load_players_from_lobby`
and loading the vote ledger via `get_voting_dict` both propagate the
JSON parse error raised on a malformed file instead of recovering, so
the claim that such errors are never propagated to the caller is false
on these loads. -/
theorem malformed_load_propagates_cex :
    load_players_from_lobby PFile.malformed = Except.error PyErr.jsonDecodeError ∧
    get_voting_dict VFile.malformed gsTwo = Except.error PyErr.jsonDecodeError :=
  ⟨rfl, rfl⟩

/-- C3, amended: malformed JSON is recovered by resetting to an empty
structure only inside `save_player_to_lobby_file` (whose roster read is
guarded), while `load_players_from_lobby` and `get_voting_dict`
propagate the parse error exactly on malformed files. -/
theorem malformed_recovery_split (f : PFile) (vf : VFile) (gs : GameState) (p : PlayerState) :
    save_player_to_lobby_file PFile.malformed p = PFile.good [p] ∧
    (load_players_from_lobby f = Except.error PyErr.jsonDecodeError ↔ f = PFile.malformed) ∧
    (get_voting_dict vf gs = Except.error PyErr.jsonDecodeError ↔ vf = VFile.malformed) := by
  refine ⟨rfl, ?_, ?_⟩
  · cases f <;> simp [load_players_from_lobby]
  · cases vf <;> simp [get_voting_dict]

/-- C5, counterexample: the Score handler, once acknowledged, returns
the Intro screen, and the coordinator loop does not break on Intro — so
stepping the state machine from Score continues the cycle instead of
terminating the loop. -/
theorem score_screen_loops_cex :
    (score_screen gsTwo alice).1 = ScreenEnum.INTRO ∧
    main_loop_breaks (ScreenVal.valid (score_screen gsTwo alice).1) = false :=
  ⟨rfl, rfl⟩

/-- C5, amended: the coordinator loop terminates only on an unrecognized
state value; after Score is reached and acknowledged, its handler hands
back Intro with the states unchanged, a recognized state on which the
loop keeps running. -/
theorem loop_breaks_only_unrecognized (ss : ScreenVal) (gs : GameState) (ps : PlayerState) :
    (main_loop_breaks ss = true ↔ ∃ tag, ss = ScreenVal.invalid tag) ∧
    score_screen gs ps = (ScreenEnum.INTRO, gs, ps) ∧
    main_loop_breaks (ScreenVal.valid ScreenEnum.INTRO) = false := by
  refine ⟨?_, rfl, rfl⟩
  cases ss with
  | valid s => simp [main_loop_breaks, state_handled]
  | invalid t => simp [main_loop_breaks, state_handled]

/-- C6: a vote returned by `collect_vote` is never the voter's own code
name, and always names a player of the current roster, so a self-vote
can never reach the ledger. -/
theorem collect_vote_no_self (gs : GameState) (ps : PlayerState)
    (inputs : List (Option Int)) (name : String)
    (h : collect_vote gs ps inputs = some name) :
    name ≠ ps.code_name ∧ name ∈ gs.players.map (fun p => p.code_name) := by
  induction inputs with
  | nil => exact Option.noConfusion h
  | cons i rest ih =>
    cases i with
    | none => exact ih h
    | some vote =>
      unfold collect_vote at h
      by_cases hrange : 1 ≤ vote ∧ vote ≤ ((eligible_players gs).length : Int)
      · rw [if_pos hrange] at h
        cases hget : (eligible_players gs)[(vote - 1).toNat]? with
        | none =>
          simp only [hget] at h
          exact ih h
        | some chosen =>
          simp only [hget] at h
          by_cases hps : (chosen.code_name == ps.code_name) = true
          · rw [if_pos hps] at h
            exact ih h
          · rw [if_neg hps] at h
            simp only [Option.some.injEq] at h
            subst h
            refine ⟨fun he => hps (beq_iff_eq.mpr he), ?_⟩
            have hmem : chosen ∈ gs.players :=
              (mem_sort_by _ chosen gs.players).mp (List.getElem?_mem hget)
            exact List.mem_map.mpr ⟨chosen, hmem, rfl⟩
      · rw [if_neg hrange] at h
        exact ih h

/-- C6, witness: with roster `[A, B]`, voter `A` first tries to vote for
themselves, is re-prompted, and ends up voting for `B`. -/
theorem collect_vote_no_self_witness :
    "B" ≠ alice.code_name ∧ "B" ∈ gsTwo.players.map (fun p => p.code_name) :=
  collect_vote_no_self gsTwo alice [some 1, some 2] "B" (by decide)

/-- C8: starting from a fresh lobby file, any sequence of registrations
through `save_player_to_lobby_file` — repeated code names included —
leaves a roster holding each registered code name exactly once. -/
theorem roster_unique_registration (seq : List PlayerState) (c : String) :
    List.count c ((register_sequence seq).map (fun q => q.code_name)) =
      if c ∈ seq.map (fun q => q.code_name) then 1 else 0 := by
  unfold register_sequence
  rw [roster_of_foldl, register_fold_count]
  simp [roster_of]

/-- C9, counterexample: from the state `gsIce` (counter 0, round 1),
running the guarded round-start step twice for the same round pops two
icebreakers and bumps the counter twice, refuting the claim that
replaying it consumes at most one icebreaker for every game state. -/
theorem icebreaker_replay_cex :
    gsIce.ice_asked = 0 ∧ gsIce.round_number = 1 ∧
    (round_start_step gsIce).bind round_start_step =
      some { gsIce with ice_asked := 2, icebreakers := [] } := by
  decide

/-- C9, amended: the round-start step is idempotent once the
icebreakers-asked counter has caught up with the round number (which
holds whenever the step has already run for this round), and a state
whose counter exceeds the round number consumes nothing. -/
theorem icebreaker_guard (gs : GameState) :
    (gs.round_number ≤ gs.ice_asked →
      (round_start_step gs).bind round_start_step = round_start_step gs) ∧
    (gs.round_number < gs.ice_asked → round_start_step gs = some gs) := by
  constructor
  · intro hle
    by_cases heq : gs.ice_asked ≤ gs.round_number
    · cases hq : gs.icebreakers with
      | nil =>
        have h1 : round_start_step gs = none := by
          unfold round_start_step ask_icebreaker
          rw [if_pos heq, hq]
        rw [h1]
        rfl
      | cons q rest =>
        have h1 : round_start_step gs =
            some { gs with ice_asked := gs.ice_asked + 1, icebreakers := rest } := by
          unfold round_start_step ask_icebreaker
          rw [if_pos heq, hq]
        rw [h1, Option.some_bind]
        exact round_start_step_of_gt _ (Nat.lt_succ_of_le hle)
    · have h2 := round_start_step_of_gt gs (Nat.not_le.mp heq)
      rw [h2, Option.some_bind, h2]
  · exact round_start_step_of_gt gs

/-- C9, witness: a state whose counter equals its round number replays
the round-start step without consuming a second icebreaker. -/
theorem icebreaker_guard_witness :
    (round_start_step gsTwo).bind round_start_step = round_start_step gsTwo :=
  (icebreaker_guard gsTwo).1 (by decide)

/-- C2: a completed voting round hands over to the Score screen exactly
when, on the post-vote roster and post-increment round number, no human
remains, or no AI remains, or the round number has reached the
configured human count; otherwise it hands over to the Chat screen. -/
theorem score_transition_iff (gs : GameState) (ps : PlayerState) (vd : VoteDict)
    (scr : ScreenEnum) (gs' : GameState) (ps' : PlayerState)
    (h : voting_round gs ps vd = some (scr, gs', ps')) :
    (scr = ScreenEnum.SCORE ↔
      ((gs'.players.filter (fun p => p.is_human)).length = 0 ∨
       (gs'.players.filter (fun p => !p.is_human)).length = 0 ∨
       gs'.number_of_human_players ≤ gs'.round_number)) ∧
    (scr = ScreenEnum.SCORE ∨ scr = ScreenEnum.CHAT) := by
  obtain ⟨most, mx, gs1, ps1, msg, hcv, hp, hgs, hscr⟩ := voting_round_cases gs ps vd scr gs' ps' h
  rw [← should_transition_to_score_iff gs']
  subst hscr
  by_cases hst : should_transition_to_score gs' = true
  · rw [if_pos hst]
    simp [hst]
  · rw [if_neg hst]
    simp [hst]

/-- C2, witness: a one-ballot round-0 vote in `gsTwo` eliminates the
only human, and the next screen is Score because no human remains. -/
theorem score_transition_iff_witness :
    ScreenEnum.SCORE = ScreenEnum.SCORE ∨ ScreenEnum.SCORE = ScreenEnum.CHAT :=
  (score_transition_iff gsTwo bobBot [(0, [("A", 1), ("B", 0)])]
    ScreenEnum.SCORE gsTwoAfter bobBot (by decide)).2

/-- C7: every completed voting round leaves the round number exactly one
above its previous value, whatever the elimination outcome, and the
choice of the next screen is made on the already-incremented state. -/
theorem voting_round_increments_round (gs : GameState) (ps : PlayerState) (vd : VoteDict)
    (scr : ScreenEnum) (gs' : GameState) (ps' : PlayerState)
    (h : voting_round gs ps vd = some (scr, gs', ps')) :
    gs'.round_number = gs.round_number + 1 ∧
    scr = (if should_transition_to_score gs' then ScreenEnum.SCORE else ScreenEnum.CHAT) := by
  obtain ⟨most, mx, gs1, ps1, msg, hcv, hp, hgs, hscr⟩ := voting_round_cases gs ps vd scr gs' ps' h
  refine ⟨?_, hscr⟩
  have hfields := process_voting_result_fields gs ps mx most gs1 ps1 msg hp
  rw [hgs]
  simp [hfields.1]

/-- C7, witness: a tied round-0 vote in `gsThree` eliminates nobody and
still advances the round number from 0 to 1. -/
theorem voting_round_increments_round_witness :
    gsThreeAfter.round_number = gsThree.round_number + 1 :=
  (voting_round_increments_round gsThree alice [(0, [("A", 1), ("B", 1), ("C", 0)])]
    ScreenEnum.CHAT gsThreeAfter alice (by decide)).1

/-- C4, counterexample: one vote for `B` cast by `A` and one vote for
`B` cast by `C` leave `voting.json` in the same state — an object
mapping each code name to a count — so the ledger does not hold
VoteRecord objects carrying the voter identity, and a vote's voter is
not recoverable from it. -/
theorem vote_ledger_voter_free_cex :
    record_votes VFile.absent gsThree [("A", "B")] =
      record_votes VFile.absent gsThree [("C", "B")] ∧
    record_votes VFile.absent gsThree [("A", "B")] =
      VFile.good [(0, [("A", 0), ("B", 1), ("C", 0)])] ∧
    ("A", "B") ≠ ("C", "B") := by
  decide

/-- C4, amended: for every round the voting file stores under the round
key an object mapping target code names to integer vote counts; casting
a vote only increments the target's count, so two vote sequences with
the same targets produce identical ledgers regardless of who voted. -/
theorem vote_ledger_counts (f : VFile) (gs : GameState)
    (votes votes' : List (String × String))
    (hsame : votes.map Prod.snd = votes'.map Prod.snd) :
    record_votes f gs votes = record_votes f gs votes' := by
  induction votes generalizing votes' f with
  | nil =>
    cases votes' with
    | nil => rfl
    | cons w ws => simp at hsame
  | cons v vs ih =>
    cases votes' with
    | nil => simp at hsame
    | cons w ws =>
      simp only [List.map_cons, List.cons.injEq] at hsame
      obtain ⟨h1, h2⟩ := hsame
      unfold record_votes
      rw [List.foldl_cons, List.foldl_cons, h1]
      exact ih ((update_voting_dict f gs w.2).2) ws h2

/-- C4, witness: ballots for the same target cast by different voters
leave the same ledger. -/
theorem vote_ledger_counts_witness :
    record_votes VFile.absent gsTwo [("A", "B")] =
      record_votes VFile.absent gsTwo [("B", "B")] :=
  vote_ledger_counts VFile.absent gsTwo [("A", "B")] [("B", "B")] (by decide)

/-- C10, counterexample: updating an absent voting file with an unknown
code name raises ValueError, yet the on-disk file is not left unchanged:
the load step has initialized it with the round-0 zero table. -/
theorem update_file_created_cex :
    update_voting_dict VFile.absent gsTwo "C" =
      (Except.error PyErr.valueError, VFile.good [(0, [("A", 0), ("B", 0)])]) ∧
    VFile.good [(0, [("A", 0), ("B", 0)])] ≠ VFile.absent := by
  decide

/-- C10, amended: `update_voting_dict` raises ValueError exactly when
the voted-for code name is not a key of the current round's table (built
from the roster when missing); on that error an existing file is left
unchanged, while an absent file is left holding exactly the round-0
initialization written by the load step, and a malformed file raises the
JSON error instead with the file untouched. -/
theorem update_voting_dict_valueerror (gs : GameState) (c : String) (vd : VoteDict) :
    ((update_voting_dict (VFile.good vd) gs c).1 = Except.error PyErr.valueError ↔
      (round_table vd gs).lookup c = none) ∧
    ((update_voting_dict (VFile.good vd) gs c).1 = Except.error PyErr.valueError →
      (update_voting_dict (VFile.good vd) gs c).2 = VFile.good vd) ∧
    ((update_voting_dict VFile.absent gs c).1 = Except.error PyErr.valueError ↔
      (round_table (init_vote_dict gs) gs).lookup c = none) ∧
    ((update_voting_dict VFile.absent gs c).1 = Except.error PyErr.valueError →
      (update_voting_dict VFile.absent gs c).2 = VFile.good (init_vote_dict gs)) ∧
    (update_voting_dict VFile.malformed gs c).1 = Except.error PyErr.jsonDecodeError ∧
    (update_voting_dict VFile.malformed gs c).2 = VFile.malformed := by
  refine ⟨?_, ?_, ?_, ?_, rfl, rfl⟩
  · cases hl : (round_table vd gs).lookup c with
    | none => simp [update_voting_dict, get_voting_dict, hl]
    | some n => simp [update_voting_dict, get_voting_dict, hl]
  · intro hv
    cases hl : (round_table vd gs).lookup c with
    | none => simp [update_voting_dict, get_voting_dict, hl]
    | some n => simp [update_voting_dict, get_voting_dict, hl] at hv
  · cases hl : (round_table (init_vote_dict gs) gs).lookup c with
    | none => simp [update_voting_dict, get_voting_dict, hl]
    | some n => simp [update_voting_dict, get_voting_dict, hl]
  · intro hv
    cases hl : (round_table (init_vote_dict gs) gs).lookup c with
    | none => simp [update_voting_dict, get_voting_dict, hl]
    | some n => simp [update_voting_dict, get_voting_dict, hl] at hv

/-- C10, witness: a vote for an unknown name against an existing file
raises and leaves the file as it was. -/
theorem update_voting_dict_valueerror_witness :
    (update_voting_dict (VFile.good [(0, [("A", 1)])]) gsTwo "Z").2 =
      VFile.good [(0, [("A", 1)])] :=
  (update_voting_dict_valueerror gsTwo "Z" [(0, [("A", 1)])]).2.1 (by decide)

/-- C1: the plurality policy of the tally.  For a round whose vote table
is present and non-empty, the tallied leaders are exactly the targets
attaining the maximum count; a shared maximum or a zero maximum
eliminates nobody, and otherwise the unique leader — when present in the
active roster — is the one participant removed from the roster and
appended, with its alive flag cleared, to the eliminated collection.
The concrete checks of the specification are included: `[A:3, B:3]`
eliminates nobody, `[A:0]` eliminates nobody, `[A:2, B:1]` eliminates
`A`. -/
theorem vote_plurality_policy (gs : GameState) (ps : PlayerState) (vote_dict : VoteDict)
    (most : List String) (mx : Nat)
    (hcv : count_votes vote_dict gs = some (most, mx))
    (hin : ∀ t, most = [t] → 0 < mx →
      (gs.players.find? (fun p => p.code_name == t)).isSome = true) :
    (∃ tbl, vote_dict.lookup gs.round_number = some tbl ∧ most ≠ [] ∧
      (∀ kv ∈ tbl, kv.2 ≤ mx) ∧ (∀ c, c ∈ most ↔ (c, mx) ∈ tbl)) ∧
    (1 < most.length →
      (process_voting_result gs ps mx most).map
          (fun o => (o.1.players, o.1.players_voted_off)) =
        some (gs.players, gs.players_voted_off)) ∧
    (mx = 0 →
      (process_voting_result gs ps mx most).map
          (fun o => (o.1.players, o.1.players_voted_off)) =
        some (gs.players, gs.players_voted_off)) ∧
    (∀ t, most = [t] → 0 < mx →
      ∃ vp, gs.players.find? (fun p => p.code_name == t) = some vp ∧
        (process_voting_result gs ps mx most).map
            (fun o => (o.1.players, o.1.players_voted_off)) =
          some (gs.players.filter (fun p => p.code_name != t),
            gs.players_voted_off ++ [{ vp with still_in_game := false }])) ∧
    count_votes [(0, [("A", 3), ("B", 3)])] gsTwo = some (["A", "B"], 3) ∧
    (process_voting_result gsTwo alice 3 ["A", "B"]).map (fun o => o.1.players) =
      some gsTwo.players ∧
    count_votes [(0, [("A", 0)])] gsTwo = some (["A"], 0) ∧
    (process_voting_result gsTwo alice 0 ["A"]).map (fun o => o.1.players) =
      some gsTwo.players ∧
    count_votes [(0, [("A", 2), ("B", 1)])] gsTwo = some (["A"], 2) ∧
    (process_voting_result gsTwo bobBot 2 ["A"]).map
        (fun o => (o.1.players.map (fun p => p.code_name),
          o.1.players_voted_off.map (fun p => (p.code_name, p.still_in_game)))) =
      some (["B"], [("A", false)]) := by
  have hbr2 : mx = 0 →
      (process_voting_result gs ps mx most).map
          (fun o => (o.1.players, o.1.players_voted_off)) =
        some (gs.players, gs.players_voted_off) := by
    intro h0
    unfold process_voting_result
    by_cases hlen : 1 < most.length
    · rw [if_pos hlen]
      rfl
    · rw [if_neg hlen, if_pos h0]
      rfl
  have hbr1 : 1 < most.length →
      (process_voting_result gs ps mx most).map
          (fun o => (o.1.players, o.1.players_voted_off)) =
        some (gs.players, gs.players_voted_off) := by
    intro hlen
    unfold process_voting_result
    rw [if_pos hlen]
    rfl
  have hbr3 : ∀ t, most = [t] → 0 < mx →
      ∃ vp, gs.players.find? (fun p => p.code_name == t) = some vp ∧
        (process_voting_result gs ps mx most).map
            (fun o => (o.1.players, o.1.players_voted_off)) =
          some (gs.players.filter (fun p => p.code_name != t),
            gs.players_voted_off ++ [{ vp with still_in_game := false }]) := by
    intro t ht hpos
    obtain ⟨vp, hvp⟩ := Option.isSome_iff_exists.mp (hin t ht hpos)
    refine ⟨vp, hvp, ?_⟩
    subst ht
    unfold process_voting_result
    rw [if_neg (by simp), if_neg (Nat.pos_iff_ne_zero.mp hpos)]
    simp only [hvp]
    by_cases hps : (ps.code_name == t) = true
    · rw [if_pos hps]
      rfl
    · rw [if_neg hps]
      rfl
  refine ⟨?_, hbr1, hbr2, hbr3, by decide, by decide, by decide, by decide, by decide,
    by decide⟩
  unfold count_votes at hcv
  cases hl : vote_dict.lookup gs.round_number with
  | none =>
    simp only [hl] at hcv
    exact Option.noConfusion hcv
  | some tbl =>
    simp only [hl] at hcv
    cases hm : tbl.map Prod.snd with
    | nil =>
      simp only [hm] at hcv
      exact Option.noConfusion hcv
    | cons v vs =>
      simp only [hm, Option.some.injEq, Prod.mk.injEq] at hcv
      obtain ⟨hmost, hmx⟩ := hcv
      have hmost' : most = (tbl.filter (fun kv => kv.2 == mx)).map Prod.fst := by
        rw [← hmost, hmx]
      have hmaxle : ∀ kv ∈ tbl, kv.2 ≤ mx := by
        intro kv hkv
        have hv2 : kv.2 ∈ tbl.map Prod.snd := List.mem_map.mpr ⟨kv, hkv, rfl⟩
        rw [hm] at hv2
        rcases List.mem_cons.mp hv2 with he | hmem
        · rw [he, ← hmx]
          exact le_foldl_max vs v
        · rw [← hmx]
          exact foldl_max_le vs v kv.2 hmem
      have hmostmem : ∀ c, c ∈ most ↔ (c, mx) ∈ tbl := by
        intro c
        rw [hmost']
        constructor
        · intro hc
          obtain ⟨kv, hkvf, hfst⟩ := List.mem_map.mp hc
          obtain ⟨hkv, hbeq⟩ := List.mem_filter.mp hkvf
          have h2 : kv.2 = mx := eq_of_beq hbeq
          have h3 : (c, mx) = kv := by
            rw [← hfst, ← h2]
          rw [h3]
          exact hkv
        · intro hc
          exact List.mem_map.mpr ⟨(c, mx), List.mem_filter.mpr ⟨hc, by simp⟩, rfl⟩
      have hattain : mx ∈ tbl.map Prod.snd := by
        rw [hm, ← hmx]
        rcases foldl_max_mem vs v with he | hmem
        · rw [he]
          exact List.mem_cons_self v vs
        · exact List.mem_cons_of_mem v hmem
      have hne : most ≠ [] := by
        obtain ⟨kv, hkv, h2⟩ := List.mem_map.mp hattain
        have hkm : kv.1 ∈ most := by
          rw [hmostmem kv.1]
          have h3 : (kv.1, mx) = kv := by
            rw [← h2]
          rw [h3]
          exact hkv
        exact List.ne_nil_of_mem hkm
      exact ⟨tbl, rfl, hne, hmaxle, hmostmem⟩

/-- C1, witness: the tally of the concrete table `[A:2, B:1]` in the
two-player lobby singles out `A` with the strict maximum of 2 votes. -/
theorem vote_plurality_policy_witness :
    count_votes [(0, [("A", 2), ("B", 1)])] gsTwo = some (["A"], 2) :=
  (vote_plurality_policy gsTwo bobBot [(0, [("A", 2), ("B", 1)])] ["A"] 2 (by decide)
    (by
      intro t ht hmx
      simp only [List.cons.injEq] at ht
      rw [← ht.1]
      decide)).2.2.2.2.2.2.2.2.1
